import Mathlib

/-!
Verification of the `gpx` extension subsystem: the DOM value types of
`src/dom.rs` and the extension tree builder `consume` of
`src/parser/extensions.rs`, embedded shallowly and checked against the
specification's claims.
-/

set_option maxHeartbeats 1000000

namespace Gpx

/-! ### External (xml-rs) representations

The streaming reader's own name/attribute/namespace types
(`xml::name::OwnedName`, `xml::attribute::OwnedAttribute`,
`xml::namespace::Namespace`).  Rust's `namespace`/`prefix` fields are
named `ns`/`pfx` here because both words are keywords in Lean. -/

/-- Source `xml::name::OwnedName`: local name, optional namespace URI, optional
namespace prefix. -/
structure XmlOwnedName where
  local_name : String
  ns : Option String
  pfx : Option String
  deriving Repr, DecidableEq

/-- Source `xml::attribute::OwnedAttribute`: a name and a string value. -/
structure XmlOwnedAttribute where
  name : XmlOwnedName
  value : String
  deriving Repr, DecidableEq

/-- Source `xml::namespace::Namespace`: a prefix-to-URI mapping (a `BTreeMap`,
modelled by its ordered list of entries). -/
structure XmlNamespace where
  mapping : List (String × String)
  deriving Repr, DecidableEq

/-! ### The DOM value types of `src/dom.rs` -/

/-- Source `dom::OwnedName` (src/dom.rs lines 23-30). -/
structure OwnedName where
  local_name : String
  ns : Option String
  pfx : Option String
  deriving Repr, DecidableEq

/-- Source `impl From<xml::name::OwnedName> for OwnedName` (src/dom.rs lines 32-40). -/
def OwnedName.ofXml (other : XmlOwnedName) : OwnedName :=
  ⟨other.local_name, other.ns, other.pfx⟩

/-- Source `impl From<OwnedName> for xml::name::OwnedName` (src/dom.rs lines 42-50). -/
def OwnedName.toXml (other : OwnedName) : XmlOwnedName :=
  ⟨other.local_name, other.ns, other.pfx⟩

/-- Source `impl PartialEq<xml::name::OwnedName> for OwnedName`
(src/dom.rs lines 52-58): fieldwise comparison across representations. -/
def OwnedName.eqXml (a : OwnedName) (b : XmlOwnedName) : Bool :=
  a.local_name == b.local_name && a.ns == b.ns && a.pfx == b.pfx

/-- Source `OwnedName::from_local_name` (src/dom.rs lines 70-76). -/
def OwnedName.from_local_name (name : String) : OwnedName :=
  ⟨name, none, none⟩

/-- Source `dom::OwnedAttribute` (src/dom.rs lines 95-100). -/
structure OwnedAttribute where
  name : OwnedName
  value : String
  deriving Repr, DecidableEq

/-- Source `impl From<xml::attribute::OwnedAttribute> for OwnedAttribute`
(src/dom.rs lines 102-109). -/
def OwnedAttribute.ofXml (other : XmlOwnedAttribute) : OwnedAttribute :=
  ⟨OwnedName.ofXml other.name, other.value⟩

/-- Source `impl From<OwnedAttribute> for xml::attribute::OwnedAttribute`
(src/dom.rs lines 111-118). -/
def OwnedAttribute.toXml (other : OwnedAttribute) : XmlOwnedAttribute :=
  ⟨OwnedName.toXml other.name, other.value⟩

/-- Source `dom::Namespace` (src/dom.rs line 149): newtype over the
prefix-to-URI `BTreeMap`. -/
structure Namespace where
  mapping : List (String × String)
  deriving Repr, DecidableEq

/-- Source `impl From<xml::namespace::Namespace> for Namespace`
(src/dom.rs lines 151-155): moves the underlying map unchanged. -/
def Namespace.ofXml (other : XmlNamespace) : Namespace :=
  ⟨other.mapping⟩

/-- Source `impl From<Namespace> for xml::namespace::Namespace`
(src/dom.rs lines 157-161). -/
def Namespace.toXml (other : Namespace) : XmlNamespace :=
  ⟨other.mapping⟩

/-- Source `Namespace::new` (src/dom.rs lines 177-179). -/
def Namespace.new : Namespace :=
  ⟨[]⟩

/-! ### The node model of `src/dom.rs`

`Node` is the tagged union of the four node kinds (src/dom.rs lines
245-250).  The Rust `Node::Element` variant wraps a `dom::Element`
struct; since `Element` recursively contains `Vec<Node>`, the Lean
constructor `Node.element` carries the struct's four fields inline
(an isomorphic unfolding of the nested struct).  `Text(String)`,
`Comment(String)` and `ProcessingInstruction{name, data}` appear as
the payloads of the remaining constructors. -/

inductive Node : Type where
  | element (name : OwnedName) (attributes : List OwnedAttribute)
      (ns : Namespace) (children : List Node)
  | processingInstruction (name : String) (data : Option String)
  | text (data : String)
  | comment (data : String)
  deriving Repr

/-- Source `dom::Element` (src/dom.rs lines 185-194). -/
structure Element where
  name : OwnedName
  attributes : List OwnedAttribute
  ns : Namespace
  children : List Node
  deriving Repr

/-- Source `impl From<Element> for Node` (src/dom.rs lines 252-256). -/
def Element.toNode (e : Element) : Node :=
  .element e.name e.attributes e.ns e.children

/-- Source `Element::new` (src/dom.rs lines 198-209): converts the xml-rs
name, attributes and namespace and starts with no children. -/
def Element.new (name : XmlOwnedName) (attributes : List XmlOwnedAttribute)
    (ns : XmlNamespace) : Element :=
  ⟨OwnedName.ofXml name, attributes.map OwnedAttribute.ofXml, Namespace.ofXml ns, []⟩

/-- Source `Element::with_local_name` (src/dom.rs lines 217-219). -/
def Element.with_local_name (name : String) : Element :=
  ⟨OwnedName.from_local_name name, [], Namespace.new, []⟩

/-- Source `Vec::push` on `element.children` (src/parser/extensions.rs lines
47, 55, 60). -/
def Element.pushChild (e : Element) (n : Node) : Element :=
  ⟨e.name, e.attributes, e.ns, e.children ++ [n]⟩

/-! ### Events and errors -/

/-- The payload of an error reported by the underlying xml-rs reader,
kept abstract as its message string. -/
abbrev ReaderError := String

/-- The `xml::reader::XmlEvent` variants that `consume` distinguishes.
`XmlEvent.other` stands for the remaining xml-rs variants
(`StartDocument`, `EndDocument`, `CData`, `Whitespace`, `Doctype`),
which the builder's wildcard arm treats identically
(src/parser/extensions.rs line 63); `ProcessingInstruction` is kept
separate because claim C9 talks about it. -/
inductive XmlEvent : Type where
  | startElement (name : XmlOwnedName) (attributes : List XmlOwnedAttribute)
      (ns : XmlNamespace)
  | endElement (name : XmlOwnedName)
  | characters (data : String)
  | comment (data : String)
  | processingInstruction (name : String) (data : Option String)
  | other
  deriving Repr, DecidableEq

/-- The error type of the crate, `GpxError`.  `errors.rs` is not among
the provided sources; the two constructors below with string payloads
are pinned by their uses in src/parser/extensions.rs (lines 28, 49,
67).  `underlyingReaderError` is modelled from the spec:
"Any error surfaced by the underlying stream is propagated unchanged,
wrapped as UnderlyingReaderError" — it is what `event?` produces from
an `Err` item of the reader. -/
inductive GpxError : Type where
  | tagOpenedTwice (tag : String)
  | missingClosingTag (tag : String)
  | underlyingReaderError (e : ReaderError)
  deriving Repr, DecidableEq

/-- The observable outcome of one `consume` call: `Ok(element)`,
`Err(gpx_error)`, or a Rust panic (`assert_eq!` failure or
`Option::unwrap` on `None`), which the embedding keeps distinct from
returned errors. -/
inductive ConsumeOutcome : Type where
  | ok (e : Element)
  | err (e : GpxError)
  | panicked (msg : String)
  deriving Repr

/-! ### The tree builder `consume` (src/parser/extensions.rs lines 14-68)

The Rust loop iterates over reader items of type
`Result<XmlEvent, xml::reader::Error>`; `event?` turns an `Err` item
into an early `GpxError` return.  The mutable state is the `started`
flag and the open-element stack; the stack is a list with its head as
the Vec's top (last) element, so `push`/`pop`/`last_mut` act on the
head and `remove(0)` takes the final list entry (under the length-1
assertion, the head). -/

def consumeLoop : List (Except ReaderError XmlEvent) → Bool → List Element →
    ConsumeOutcome
  | [], _, _ => .err (GpxError.missingClosingTag "extensions")
  | Except.error e :: _, _, _ => .err (GpxError.underlyingReaderError e)
  | Except.ok (XmlEvent.startElement name attrs ns) :: rest, started, stack =>
    if name.local_name == "extensions" then
      if started then .err (GpxError.tagOpenedTwice "extensions")
      else consumeLoop rest true stack
    else
      consumeLoop rest started (Element.new name attrs ns :: stack)
  | Except.ok (XmlEvent.endElement name) :: rest, started, stack =>
    if name.local_name == "extensions" then
      if stack.length == 1 then
        match stack with
        | e :: _ => .ok e
        | [] => .panicked "assertion failed"
      else .panicked "assertion failed: stack.len() == 1"
    else
      match stack with
      | [] => .panicked "called Option::unwrap on a None value"
      | top :: stack2 =>
        if OwnedName.eqXml top.name name then
          match stack2 with
          | [] => .panicked "called Option::unwrap on a None value"
          | parent :: stack3 =>
            consumeLoop rest started (parent.pushChild top.toNode :: stack3)
        else .err (GpxError.missingClosingTag "EXTENSION MALFORMED")
  | Except.ok (XmlEvent.characters data) :: rest, started, stack =>
    match stack with
    | [] => .panicked "called Option::unwrap on a None value"
    | top :: stack2 => consumeLoop rest started (top.pushChild (.text data) :: stack2)
  | Except.ok (XmlEvent.comment data) :: rest, started, stack =>
    match stack with
    | [] => .panicked "called Option::unwrap on a None value"
    | top :: stack2 => consumeLoop rest started (top.pushChild (.comment data) :: stack2)
  | Except.ok (XmlEvent.processingInstruction _ _) :: rest, started, stack =>
    consumeLoop rest started stack
  | Except.ok XmlEvent.other :: rest, started, stack =>
    consumeLoop rest started stack

/-- Source `consume` (src/parser/extensions.rs lines 14-68): `started = false`
and a stack holding the pre-created root shell. -/
def consume (events : List (Except ReaderError XmlEvent)) : ConsumeOutcome :=
  consumeLoop events false [Element.with_local_name "extensions"]

/-! ### Specification-side encodings

`eventsOfNode`/`eventsOfForest` serialize a DOM forest into the event
sequence whose nesting and document order the forest mirrors; a
"well-formed, properly nested event sequence bounded by the root pair"
is exactly `start(root) :: eventsOfForest f ++ [end(root)]`.
`goodNode`/`goodForest` say that no element of the forest reuses the
root tag's local name and no processing instructions occur (those
events have no tree counterpart). -/

mutual

def eventsOfNode : Node → List XmlEvent
  | .element n a ns cs =>
    XmlEvent.startElement (OwnedName.toXml n) (a.map OwnedAttribute.toXml)
        (Namespace.toXml ns)
      :: (eventsOfForest cs ++ [XmlEvent.endElement (OwnedName.toXml n)])
  | .processingInstruction t d => [XmlEvent.processingInstruction t d]
  | .text s => [XmlEvent.characters s]
  | .comment s => [XmlEvent.comment s]

def eventsOfForest : List Node → List XmlEvent
  | [] => []
  | n :: f => eventsOfNode n ++ eventsOfForest f

end

mutual

def goodNode : Node → Bool
  | .element n _ _ cs => (n.local_name != "extensions") && goodForest cs
  | .processingInstruction _ _ => false
  | .text _ => true
  | .comment _ => true

def goodForest : List Node → Bool
  | [] => true
  | n :: f => goodNode n && goodForest f

end

/-- Appending a forest to an element's children, the effect of feeding
that forest's events to the builder while the element is on top. -/
def Element.pushChildren (e : Element) (f : List Node) : Element :=
  ⟨e.name, e.attributes, e.ns, e.children ++ f⟩

/-- Removes every successfully-read processing-instruction event from a
stream, leaving all other items (including reader errors) in place. -/
def removePI : List (Except ReaderError XmlEvent) → List (Except ReaderError XmlEvent)
  | [] => []
  | Except.ok (XmlEvent.processingInstruction _ _) :: rest => removePI rest
  | ev :: rest => ev :: removePI rest

/-! ### Round-trip helper lemmas -/

theorem ofXml_toXml_name (n : OwnedName) : OwnedName.ofXml (OwnedName.toXml n) = n :=
  rfl

theorem ofXml_toXml_attribute (a : OwnedAttribute) :
    OwnedAttribute.ofXml (OwnedAttribute.toXml a) = a :=
  rfl

theorem ofXml_toXml_mapping (ns : Namespace) :
    Namespace.ofXml (Namespace.toXml ns) = ns :=
  rfl

theorem OwnedName.eqXml_toXml (n : OwnedName) : OwnedName.eqXml n (OwnedName.toXml n) = true := by
  simp [OwnedName.eqXml, OwnedName.toXml]

theorem map_ofXml_toXml (a : List OwnedAttribute) :
    (a.map OwnedAttribute.toXml).map OwnedAttribute.ofXml = a := by
  induction a with
  | nil => rfl
  | cons x xs ih => simp [ih, ofXml_toXml_attribute]

theorem Element.new_toXml (n : OwnedName) (a : List OwnedAttribute) (ns : Namespace) :
    Element.new (OwnedName.toXml n) (a.map OwnedAttribute.toXml) (Namespace.toXml ns)
      = ⟨n, a, ns, []⟩ := by
  simp only [Element.new, ofXml_toXml_name, ofXml_toXml_mapping, map_ofXml_toXml]

theorem Element.pushChildren_nil (e : Element) : e.pushChildren [] = e := by
  simp [Element.pushChildren]

theorem Element.pushChild_pushChildren (e : Element) (n : Node) (f : List Node) :
    (e.pushChild n).pushChildren f = e.pushChildren (n :: f) := by
  simp [Element.pushChild, Element.pushChildren]

/-! ### The builder on well-formed event sequences

Feeding the serialized events of a well-formed node (forest) to the
running builder appends exactly that node (forest), in order, to the
children of the current stack top. -/

mutual

theorem consumeLoop_node (n : Node) (hn : goodNode n = true)
    (k : List (Except ReaderError XmlEvent)) (top : Element) (rest : List Element) :
    consumeLoop ((eventsOfNode n).map Except.ok ++ k) true (top :: rest)
      = consumeLoop k true (top.pushChild n :: rest) := by
  cases n with
  | text s => simp [eventsOfNode, consumeLoop]
  | comment s => simp [eventsOfNode, consumeLoop]
  | processingInstruction t d => simp [goodNode] at hn
  | element nm a ns cs =>
    simp only [goodNode, Bool.and_eq_true, bne_iff_ne, ne_eq] at hn
    obtain ⟨h1, h2⟩ := hn
    have hb : ((OwnedName.toXml nm).local_name == "extensions") = false := by
      simp [OwnedName.toXml, h1]
    have step1 :
        consumeLoop ((eventsOfNode (.element nm a ns cs)).map Except.ok ++ k) true
            (top :: rest)
          = consumeLoop ((eventsOfForest cs).map Except.ok
              ++ (Except.ok (XmlEvent.endElement (OwnedName.toXml nm)) :: k)) true
              ((⟨nm, a, ns, []⟩ : Element) :: top :: rest) := by
      simp [eventsOfNode, consumeLoop, hb, Element.new_toXml, List.append_assoc]
    rw [step1, consumeLoop_forest cs h2 _ _ _]
    simp [consumeLoop, hb, Element.pushChildren, OwnedName.eqXml_toXml, Element.toNode,
      Element.pushChild]

theorem consumeLoop_forest (f : List Node) (hf : goodForest f = true)
    (k : List (Except ReaderError XmlEvent)) (top : Element) (rest : List Element) :
    consumeLoop ((eventsOfForest f).map Except.ok ++ k) true (top :: rest)
      = consumeLoop k true (top.pushChildren f :: rest) := by
  cases f with
  | nil => simp [eventsOfForest, Element.pushChildren_nil]
  | cons n f2 =>
    simp only [goodForest, Bool.and_eq_true] at hf
    simp only [eventsOfForest, List.map_append, List.append_assoc]
    rw [consumeLoop_node n hf.1 _ _ _, consumeLoop_forest f2 hf.2 _ _ _,
      Element.pushChild_pushChildren]

end

/-- A full root-bounded well-formed run: the root start event flips
`started`, the forest's events fill the pre-created root shell, and the
root end event returns it. -/
theorem consume_bounded (rn en : XmlOwnedName) (attrs : List XmlOwnedAttribute)
    (xns : XmlNamespace) (f : List Node)
    (hrn : rn.local_name = "extensions") (hen : en.local_name = "extensions")
    (hf : goodForest f = true) :
    consume ((XmlEvent.startElement rn attrs xns
        :: (eventsOfForest f ++ [XmlEvent.endElement en])).map Except.ok)
      = ConsumeOutcome.ok ⟨OwnedName.from_local_name "extensions", [], Namespace.new, f⟩ := by
  have hb : (rn.local_name == "extensions") = true := by simp [hrn]
  have hbe : (en.local_name == "extensions") = true := by simp [hen]
  have step1 :
      consume ((XmlEvent.startElement rn attrs xns
          :: (eventsOfForest f ++ [XmlEvent.endElement en])).map Except.ok)
        = consumeLoop ((eventsOfForest f).map Except.ok
            ++ [Except.ok (XmlEvent.endElement en)]) true
            [Element.with_local_name "extensions"] := by
    simp [consume, consumeLoop, hb]
  rw [step1, consumeLoop_forest f hf _ _ _]
  simp [consumeLoop, hbe, Element.pushChildren, Element.with_local_name]

/-- One builder step is insensitive to a change of stream tail that
does not change the builder's result, for every event at the head. -/
theorem consumeLoop_tail_congr (ev : Except ReaderError XmlEvent)
    (r1 r2 : List (Except ReaderError XmlEvent))
    (h : ∀ st sk, consumeLoop r1 st sk = consumeLoop r2 st sk)
    (st : Bool) (sk : List Element) :
    consumeLoop (ev :: r1) st sk = consumeLoop (ev :: r2) st sk := by
  cases ev with
  | error e => simp [consumeLoop]
  | ok xe =>
    cases xe with
    | startElement nm attrs xns =>
      simp only [consumeLoop]
      split
      · split
        · rfl
        · exact h _ _
      · exact h _ _
    | endElement nm =>
      simp only [consumeLoop]
      split
      · rfl
      · split
        · rfl
        · split
          · split
            · rfl
            · exact h _ _
          · rfl
    | characters s =>
      simp only [consumeLoop]
      cases sk with
      | nil => rfl
      | cons top sk2 => exact h _ _
    | comment s =>
      simp only [consumeLoop]
      cases sk with
      | nil => rfl
      | cons top sk2 => exact h _ _
    | processingInstruction t d => simp only [consumeLoop]; exact h _ _
    | other => simp only [consumeLoop]; exact h _ _

/-- Dropping the processing-instruction events of a stream does not
change the builder's behaviour, in any builder state. -/
theorem consumeLoop_removePI (evs : List (Except ReaderError XmlEvent)) :
    ∀ st sk, consumeLoop (removePI evs) st sk = consumeLoop evs st sk := by
  induction evs with
  | nil => intro st sk; rfl
  | cons ev r ih =>
    intro st sk
    cases ev with
    | error e => rw [show removePI (Except.error e :: r) = Except.error e :: removePI r from rfl]
                 exact consumeLoop_tail_congr _ _ _ ih st sk
    | ok xe =>
      cases xe with
      | processingInstruction t d =>
        rw [show removePI (Except.ok (XmlEvent.processingInstruction t d) :: r)
              = removePI r from rfl]
        rw [show consumeLoop (Except.ok (XmlEvent.processingInstruction t d) :: r) st sk
              = consumeLoop r st sk from rfl]
        exact ih st sk
      | startElement nm attrs xns => exact consumeLoop_tail_congr _ _ _ ih st sk
      | endElement nm => exact consumeLoop_tail_congr _ _ _ ih st sk
      | characters s => exact consumeLoop_tail_congr _ _ _ ih st sk
      | comment s => exact consumeLoop_tail_congr _ _ _ ih st sk
      | other => exact consumeLoop_tail_congr _ _ _ ih st sk

/-! ### The claims -/

/-- C1: For every well-formed, properly nested event sequence bounded by
a start-element/end-element pair for the root tag "extensions", consume
succeeds and returns an Element whose name matches the root tag and
whose descendant structure (element nesting, text, comments) exactly
mirrors the input nesting and document order, with children appended in
the order their events occurred. -/
theorem consume_wellformed_mirrors (rn en : XmlOwnedName)
    (attrs : List XmlOwnedAttribute) (xns : XmlNamespace) (f : List Node)
    (hrn : rn.local_name = "extensions") (hen : en.local_name = "extensions")
    (hf : goodForest f = true) :
    consume ((XmlEvent.startElement rn attrs xns
        :: (eventsOfForest f ++ [XmlEvent.endElement en])).map Except.ok)
      = ConsumeOutcome.ok ⟨OwnedName.from_local_name "extensions", [], Namespace.new, f⟩ :=
  consume_bounded rn en attrs xns f hrn hen hf

theorem consume_wellformed_mirrors_witness :
    consume ((XmlEvent.startElement ⟨"extensions", none, none⟩ [] ⟨[]⟩
        :: (eventsOfForest
              [Node.text "hello",
               Node.element ⟨"a", none, none⟩ [⟨⟨"k", none, none⟩, "v"⟩] ⟨[]⟩
                 [Node.comment "note", Node.element ⟨"b", none, none⟩ [] ⟨[]⟩ []]]
            ++ [XmlEvent.endElement ⟨"extensions", none, none⟩])).map Except.ok)
      = ConsumeOutcome.ok ⟨OwnedName.from_local_name "extensions", [], Namespace.new,
          [Node.text "hello",
           Node.element ⟨"a", none, none⟩ [⟨⟨"k", none, none⟩, "v"⟩] ⟨[]⟩
             [Node.comment "note", Node.element ⟨"b", none, none⟩ [] ⟨[]⟩ []]]⟩ :=
  consume_wellformed_mirrors ⟨"extensions", none, none⟩ ⟨"extensions", none, none⟩ [] ⟨[]⟩
    _ rfl rfl rfl

/-- C2 counterexample: the claim says the length-1 assertion at the
root-closing event can never fail on an input accepted up to that
point, but the accepted sequence `<a><extensions></extensions>` (a
non-root element opened before the root and still open) reaches that
event with two stack entries, and the `assert_eq!(stack.len(), 1)`
fails (a Rust panic). -/
theorem root_close_assert_can_fail :
    consume [Except.ok (XmlEvent.startElement ⟨"a", none, none⟩ [] ⟨[]⟩),
        Except.ok (XmlEvent.startElement ⟨"extensions", none, none⟩ [] ⟨[]⟩),
        Except.ok (XmlEvent.endElement ⟨"extensions", none, none⟩)]
      = ConsumeOutcome.panicked "assertion failed: stack.len() == 1" := by
  rfl

/-- C2 (amended): when the events between the root start and the root
end are a properly nested forest of non-root elements, text and
comments — the shape the underlying reader delivers for a root-bounded
region — the stack holds exactly the root shell when the root
end-element is processed, so the assertion cannot fail and consume
never panics; on other accepted event sequences the assertion can fail
(a builder defect surfaced as a panic, not a user-input error). -/
theorem root_close_assert_holds_when_root_bounded (m : String) (rn en : XmlOwnedName)
    (attrs : List XmlOwnedAttribute) (xns : XmlNamespace) (f : List Node)
    (hrn : rn.local_name = "extensions") (hen : en.local_name = "extensions")
    (hf : goodForest f = true) :
    consume ((XmlEvent.startElement rn attrs xns
        :: (eventsOfForest f ++ [XmlEvent.endElement en])).map Except.ok)
      ≠ ConsumeOutcome.panicked m := by
  rw [consume_bounded rn en attrs xns f hrn hen hf]
  intro h
  exact ConsumeOutcome.noConfusion h

theorem root_close_assert_holds_when_root_bounded_witness :
    consume ((XmlEvent.startElement ⟨"extensions", none, none⟩ [] ⟨[]⟩
        :: (eventsOfForest [Node.element ⟨"a", none, none⟩ [] ⟨[]⟩ []]
            ++ [XmlEvent.endElement ⟨"extensions", none, none⟩])).map Except.ok)
      ≠ ConsumeOutcome.panicked "assertion failed: stack.len() == 1" :=
  root_close_assert_holds_when_root_bounded "assertion failed: stack.len() == 1"
    ⟨"extensions", none, none⟩ ⟨"extensions", none, none⟩ [] ⟨[]⟩
    [Node.element ⟨"a", none, none⟩ [] ⟨[]⟩ []] rfl rfl rfl

/-- C3: an end-element event with a non-root local name, processed while
in progress, pops the stack top; on a name mismatch consume fails with
the MalformedExtension error (`MissingClosingTag("EXTENSION
MALFORMED")`), otherwise the popped element is appended as the last
child of the new stack top.  In particular
`<extensions><a></b></extensions>` fails with that error. -/
theorem end_element_nonroot_pop (name : XmlOwnedName)
    (hn : name.local_name ≠ "extensions") (top parent : Element)
    (stack3 : List Element) (k : List (Except ReaderError XmlEvent)) :
    (OwnedName.eqXml top.name name = false →
      consumeLoop (Except.ok (XmlEvent.endElement name) :: k) true (top :: parent :: stack3)
        = ConsumeOutcome.err (GpxError.missingClosingTag "EXTENSION MALFORMED"))
    ∧ (OwnedName.eqXml top.name name = true →
      consumeLoop (Except.ok (XmlEvent.endElement name) :: k) true (top :: parent :: stack3)
        = consumeLoop k true (parent.pushChild top.toNode :: stack3))
    ∧ consume [Except.ok (XmlEvent.startElement ⟨"extensions", none, none⟩ [] ⟨[]⟩),
        Except.ok (XmlEvent.startElement ⟨"a", none, none⟩ [] ⟨[]⟩),
        Except.ok (XmlEvent.endElement ⟨"b", none, none⟩),
        Except.ok (XmlEvent.endElement ⟨"extensions", none, none⟩)]
      = ConsumeOutcome.err (GpxError.missingClosingTag "EXTENSION MALFORMED") := by
  have hb : (name.local_name == "extensions") = false := by simp [hn]
  refine ⟨fun hq => ?_, fun hq => ?_, rfl⟩
  · simp [consumeLoop, hb, hq]
  · simp [consumeLoop, hb, hq]

theorem end_element_nonroot_pop_witness :
    ((OwnedName.eqXml (Element.with_local_name "a").name ⟨"b", none, none⟩ = false →
      consumeLoop [Except.ok (XmlEvent.endElement ⟨"b", none, none⟩)] true
          [Element.with_local_name "a", Element.with_local_name "extensions"]
        = ConsumeOutcome.err (GpxError.missingClosingTag "EXTENSION MALFORMED"))
    ∧ (OwnedName.eqXml (Element.with_local_name "a").name ⟨"b", none, none⟩ = true →
      consumeLoop [Except.ok (XmlEvent.endElement ⟨"b", none, none⟩)] true
          [Element.with_local_name "a", Element.with_local_name "extensions"]
        = consumeLoop [] true
            [(Element.with_local_name "extensions").pushChild
              (Element.with_local_name "a").toNode]))
    ∧ consume [Except.ok (XmlEvent.startElement ⟨"extensions", none, none⟩ [] ⟨[]⟩),
        Except.ok (XmlEvent.startElement ⟨"a", none, none⟩ [] ⟨[]⟩),
        Except.ok (XmlEvent.endElement ⟨"b", none, none⟩),
        Except.ok (XmlEvent.endElement ⟨"extensions", none, none⟩)]
      = ConsumeOutcome.err (GpxError.missingClosingTag "EXTENSION MALFORMED") := by
  have h := end_element_nonroot_pop ⟨"b", none, none⟩ (by decide)
    (Element.with_local_name "a") (Element.with_local_name "extensions") [] []
  exact ⟨⟨h.1, h.2.1⟩, h.2.2⟩

/-- C4: a second start-element whose local name is "extensions",
processed while the builder is already in progress, makes consume fail
with the DuplicateRootTag error (`TagOpenedTwice("extensions")`),
whatever events follow and whatever the stack holds; no tree is
produced.  In particular the root tag opened twice fails this way. -/
theorem duplicate_root_start_rejected (name : XmlOwnedName)
    (attrs : List XmlOwnedAttribute) (xns : XmlNamespace)
    (h : name.local_name = "extensions")
    (k : List (Except ReaderError XmlEvent)) (stack : List Element) :
    consumeLoop (Except.ok (XmlEvent.startElement name attrs xns) :: k) true stack
      = ConsumeOutcome.err (GpxError.tagOpenedTwice "extensions")
    ∧ consume [Except.ok (XmlEvent.startElement ⟨"extensions", none, none⟩ [] ⟨[]⟩),
        Except.ok (XmlEvent.startElement ⟨"extensions", none, none⟩ [] ⟨[]⟩)]
      = ConsumeOutcome.err (GpxError.tagOpenedTwice "extensions") := by
  refine ⟨?_, rfl⟩
  simp [consumeLoop, h]

theorem duplicate_root_start_rejected_witness :
    (consumeLoop [Except.ok (XmlEvent.startElement ⟨"extensions", none, none⟩ [] ⟨[]⟩)]
        true [Element.with_local_name "extensions"]
      = ConsumeOutcome.err (GpxError.tagOpenedTwice "extensions"))
    ∧ consume [Except.ok (XmlEvent.startElement ⟨"extensions", none, none⟩ [] ⟨[]⟩),
        Except.ok (XmlEvent.startElement ⟨"extensions", none, none⟩ [] ⟨[]⟩)]
      = ConsumeOutcome.err (GpxError.tagOpenedTwice "extensions") :=
  duplicate_root_start_rejected ⟨"extensions", none, none⟩ [] ⟨[]⟩ rfl []
    [Element.with_local_name "extensions"]

/-- C5: reaching end-of-stream before an end-element for the root tag
has been processed — in any builder state, root never opened or opened
but never closed — makes consume fail with the UnterminatedRoot error
(`MissingClosingTag("extensions")`).  In particular `<extensions><a>`
with the stream ending there fails this way. -/
theorem end_of_stream_unterminated (started : Bool) (stack : List Element) :
    consumeLoop [] started stack
      = ConsumeOutcome.err (GpxError.missingClosingTag "extensions")
    ∧ consume [Except.ok (XmlEvent.startElement ⟨"extensions", none, none⟩ [] ⟨[]⟩),
        Except.ok (XmlEvent.startElement ⟨"a", none, none⟩ [] ⟨[]⟩)]
      = ConsumeOutcome.err (GpxError.missingClosingTag "extensions") :=
  ⟨rfl, rfl⟩

/-- C6: the explicit bidirectional conversions between the DOM's
OwnedName/OwnedAttribute/Namespace and the xml-rs representations form
an isomorphism: converting to the external representation and back
yields the original value, in both directions, losing no field. -/
theorem conversions_roundtrip :
    (∀ n : OwnedName, OwnedName.ofXml (OwnedName.toXml n) = n)
    ∧ (∀ a : OwnedAttribute, OwnedAttribute.ofXml (OwnedAttribute.toXml a) = a)
    ∧ (∀ ns : Namespace, Namespace.ofXml (Namespace.toXml ns) = ns)
    ∧ (∀ n : XmlOwnedName, OwnedName.toXml (OwnedName.ofXml n) = n)
    ∧ (∀ a : XmlOwnedAttribute, OwnedAttribute.toXml (OwnedAttribute.ofXml a) = a)
    ∧ (∀ ns : XmlNamespace, Namespace.toXml (Namespace.ofXml ns) = ns) :=
  ⟨fun _ => rfl, fun _ => rfl, fun _ => rfl, fun _ => rfl, fun _ => rfl, fun _ => rfl⟩

/-- C7: the four failure kinds are terminal returned error values and
are pairwise distinguishable: DuplicateRootTag is
`TagOpenedTwice("extensions")`, MalformedExtension is
`MissingClosingTag("EXTENSION MALFORMED")`, UnterminatedRoot is
`MissingClosingTag("extensions")` (the latter two share a constructor
but differ in payload), and UnderlyingReaderError wraps the reader's
error, distinct from all three whatever it carries. -/
theorem failure_kinds_distinguishable (e : ReaderError) :
    consume [Except.error e]
      = ConsumeOutcome.err (GpxError.underlyingReaderError e)
    ∧ consume [Except.ok (XmlEvent.startElement ⟨"extensions", none, none⟩ [] ⟨[]⟩),
        Except.ok (XmlEvent.startElement ⟨"extensions", none, none⟩ [] ⟨[]⟩)]
      = ConsumeOutcome.err (GpxError.tagOpenedTwice "extensions")
    ∧ consume [Except.ok (XmlEvent.startElement ⟨"extensions", none, none⟩ [] ⟨[]⟩),
        Except.ok (XmlEvent.startElement ⟨"a", none, none⟩ [] ⟨[]⟩),
        Except.ok (XmlEvent.endElement ⟨"b", none, none⟩)]
      = ConsumeOutcome.err (GpxError.missingClosingTag "EXTENSION MALFORMED")
    ∧ consume [Except.ok (XmlEvent.startElement ⟨"extensions", none, none⟩ [] ⟨[]⟩)]
      = ConsumeOutcome.err (GpxError.missingClosingTag "extensions")
    ∧ GpxError.tagOpenedTwice "extensions"
        ≠ GpxError.missingClosingTag "EXTENSION MALFORMED"
    ∧ GpxError.tagOpenedTwice "extensions" ≠ GpxError.missingClosingTag "extensions"
    ∧ GpxError.missingClosingTag "EXTENSION MALFORMED"
        ≠ GpxError.missingClosingTag "extensions"
    ∧ GpxError.underlyingReaderError e ≠ GpxError.tagOpenedTwice "extensions"
    ∧ GpxError.underlyingReaderError e ≠ GpxError.missingClosingTag "EXTENSION MALFORMED"
    ∧ GpxError.underlyingReaderError e ≠ GpxError.missingClosingTag "extensions" :=
  ⟨rfl, rfl, rfl, rfl, by decide, by decide, by decide, nofun, nofun, nofun⟩

/-- C8: the event sequence of
`<extensions>hello<a><b cond="no"><c>derp</c></b></a>tail</extensions>`
produces exactly the claimed tree, with text kept verbatim and
untrimmed. -/
theorem consume_concrete_scenario :
    consume ([XmlEvent.startElement ⟨"extensions", none, none⟩ [] ⟨[]⟩,
        XmlEvent.characters "hello",
        XmlEvent.startElement ⟨"a", none, none⟩ [] ⟨[]⟩,
        XmlEvent.startElement ⟨"b", none, none⟩ [⟨⟨"cond", none, none⟩, "no"⟩] ⟨[]⟩,
        XmlEvent.startElement ⟨"c", none, none⟩ [] ⟨[]⟩,
        XmlEvent.characters "derp",
        XmlEvent.endElement ⟨"c", none, none⟩,
        XmlEvent.endElement ⟨"b", none, none⟩,
        XmlEvent.endElement ⟨"a", none, none⟩,
        XmlEvent.characters "tail",
        XmlEvent.endElement ⟨"extensions", none, none⟩].map Except.ok)
      = ConsumeOutcome.ok ⟨⟨"extensions", none, none⟩, [], ⟨[]⟩,
          [Node.text "hello",
           Node.element ⟨"a", none, none⟩ [] ⟨[]⟩
             [Node.element ⟨"b", none, none⟩ [⟨⟨"cond", none, none⟩, "no"⟩] ⟨[]⟩
               [Node.element ⟨"c", none, none⟩ [] ⟨[]⟩ [Node.text "derp"]]],
           Node.text "tail"]⟩ := by
  rfl

/-- C9: processing-instruction events contribute no node to the tree:
on every input event sequence, consume's outcome equals its outcome on
the same sequence with all processing-instruction events removed. -/
theorem pi_events_dropped (evs : List (Except ReaderError XmlEvent)) :
    consume evs = consume (removePI evs) :=
  (consumeLoop_removePI evs false [Element.with_local_name "extensions"]).symm

/-- C10: characters, comment and non-root start-element events arriving
before the root start-element are not ignored: text and comments are
appended to the current stack top (the pre-created root shell) and
non-root elements are pushed, and in particular characters("x")
followed by the root start/end pair yields a root whose first child is
Text("x"). -/
theorem pre_root_events_processed (s : String) (name : XmlOwnedName)
    (attrs : List XmlOwnedAttribute) (xns : XmlNamespace)
    (hn : name.local_name ≠ "extensions")
    (k : List (Except ReaderError XmlEvent)) (top : Element) (rest : List Element) :
    (consumeLoop (Except.ok (XmlEvent.characters s) :: k) false (top :: rest)
      = consumeLoop k false (top.pushChild (Node.text s) :: rest))
    ∧ (consumeLoop (Except.ok (XmlEvent.comment s) :: k) false (top :: rest)
      = consumeLoop k false (top.pushChild (Node.comment s) :: rest))
    ∧ (consumeLoop (Except.ok (XmlEvent.startElement name attrs xns) :: k) false
          (top :: rest)
      = consumeLoop k false (Element.new name attrs xns :: top :: rest))
    ∧ consume [Except.ok (XmlEvent.characters "x"),
        Except.ok (XmlEvent.startElement ⟨"extensions", none, none⟩ [] ⟨[]⟩),
        Except.ok (XmlEvent.endElement ⟨"extensions", none, none⟩)]
      = ConsumeOutcome.ok ⟨OwnedName.from_local_name "extensions", [], Namespace.new,
          [Node.text "x"]⟩ := by
  have hb : (name.local_name == "extensions") = false := by simp [hn]
  refine ⟨rfl, rfl, ?_, rfl⟩
  simp [consumeLoop, hb]

theorem pre_root_events_processed_witness :
    (consumeLoop [Except.ok (XmlEvent.characters "y")] false
        [Element.with_local_name "extensions"]
      = consumeLoop [] false
          [(Element.with_local_name "extensions").pushChild (Node.text "y")])
    ∧ (consumeLoop [Except.ok (XmlEvent.comment "y")] false
        [Element.with_local_name "extensions"]
      = consumeLoop [] false
          [(Element.with_local_name "extensions").pushChild (Node.comment "y")])
    ∧ (consumeLoop [Except.ok (XmlEvent.startElement ⟨"a", none, none⟩ [] ⟨[]⟩)] false
        [Element.with_local_name "extensions"]
      = consumeLoop [] false
          [Element.new ⟨"a", none, none⟩ [] ⟨[]⟩, Element.with_local_name "extensions"])
    ∧ consume [Except.ok (XmlEvent.characters "x"),
        Except.ok (XmlEvent.startElement ⟨"extensions", none, none⟩ [] ⟨[]⟩),
        Except.ok (XmlEvent.endElement ⟨"extensions", none, none⟩)]
      = ConsumeOutcome.ok ⟨OwnedName.from_local_name "extensions", [], Namespace.new,
          [Node.text "x"]⟩ :=
  pre_root_events_processed "y" ⟨"a", none, none⟩ [] ⟨[]⟩ (by decide) []
    (Element.with_local_name "extensions") []

end Gpx
